import Mathlib

/-!
Shallow embedding of the `@axiom-labs/convex-table` package's core logic:

* the JavaScript value conventions the code relies on (`Number(...)` on
  decimal strings, `||` fallbacks on falsy values, numeric `toString`),
* the cursor-history pagination bookkeeping of the Next.js demo page
  (`src/unnamed/part_008`, component `ConvexTable`),
* the URL-parameter parser and builder
  (`src/unnamed/part_009`: `parseTableParams`, `buildTableParams`),
* the client table-state hook
  (`src/packages/convex-table/src/react/useTableState.ts`),
* the two cursor-mode `TablePagination` views
  (`src/unnamed/part_000` and
  `src/packages/convex-table/src/react/TablePagination.tsx`).

JavaScript numbers are modelled as `ℚ` (no floating point rounding is
exercised by any of the verified properties) and `NaN` as `none` in
`Option ℚ`.  Nullable strings (`string | null`, `string | undefined`)
are `Option String`.
-/

namespace ConvexTable

/-- A JavaScript number that may be `NaN`: `none` is `NaN`. -/
abbrev JSNum := Option ℚ

/-- The decimal digit character for `d` (`0 ↦ '0'`, …, `9 ↦ '9'`). -/
def digitChar (d : ℕ) : Char := Char.ofNat (48 + d)

/-- Numeric value of a digit character (`'7' ↦ 7`). -/
def charVal (c : Char) : ℕ := c.toNat - 48

/-- Whether `c` is one of `'0'`–`'9'`. -/
def isDigitChar (c : Char) : Bool := 48 ≤ c.toNat && c.toNat ≤ 57

/-- Value of a big-endian digit string, as folded up by a decimal parser. -/
def parseDigitsVal (l : List Char) : ℕ :=
  l.foldl (fun a c => a * 10 + charVal c) 0

/-- Decimal digits of `n`, big endian, fuel-driven so that the kernel can
evaluate it (the fuel is an upper bound on the number to print). -/
def natToCharsAux : ℕ → ℕ → List Char
  | 0, _ => []
  | _ + 1, 0 => []
  | fuel + 1, n + 1 =>
    natToCharsAux fuel ((n + 1) / 10) ++ [digitChar ((n + 1) % 10)]

/-- Decimal representation of a natural number, as JavaScript's
`Number.prototype.toString` renders a nonnegative integer. -/
def natToChars (n : ℕ) : List Char := if n = 0 then ['0'] else natToCharsAux n n

/-- `natToChars`, packaged as a `String`. -/
def natToString (n : ℕ) : String := ⟨natToChars n⟩

/-- Decimal representation of an integer (minus sign for negatives), as
JavaScript renders an integral number. -/
def intToString (i : ℤ) : String :=
  if i < 0 then ⟨'-' :: natToChars i.natAbs⟩ else natToString i.natAbs

/-- Fractional decimal digits of `num / den` (`num < den`), at most `fuel`
of them; models how JavaScript prints a terminating binary fraction such
as `2.5`.  Only used for rendering non-integral numbers, which no verified
property depends on. -/
def fracChars : ℕ → ℕ → ℕ → List Char
  | 0, _, _ => []
  | fuel + 1, num, den =>
    if num = 0 then []
    else digitChar (num * 10 / den) :: fracChars fuel (num * 10 % den) den

/-- Model of JavaScript's number-to-string conversion on `ℚ`: integers are
printed in decimal (as every verified property uses), other values get a
bounded decimal expansion. -/
def jsNumToString (q : ℚ) : String :=
  if q.den = 1 then intToString q.num
  else
    (if q < 0 then "-" else "") ++ natToString (q.num.natAbs / q.den) ++
      "." ++ ⟨fracChars 20 (q.num.natAbs % q.den) q.den⟩

/-- Value of an unsigned decimal literal: digits, optionally followed by a
dot and more digits (`"2"`, `"2.5"`, `".5"`, `"2."`); `none` when the
characters are not of this shape. -/
def jsUnsignedVal (body : List Char) : Option ℚ :=
  let ip := body.takeWhile isDigitChar
  match body.dropWhile isDigitChar with
  | [] => if ip = [] then none else some (parseDigitsVal ip : ℚ)
  | c :: fp =>
    if c = '.' ∧ fp.all isDigitChar ∧ (ip ≠ [] ∨ fp ≠ []) then
      some ((parseDigitsVal ip : ℚ) + (parseDigitsVal fp : ℚ) / (10 : ℚ) ^ fp.length)
    else none

/-- Model of JavaScript's `Number()` on the decimal fragment the repository
exercises: `""` is `0`, an optional sign followed by a decimal literal is
its value, anything else is `NaN` (`none`). -/
def jsNumberChars (l : List Char) : JSNum :=
  match l with
  | [] => some 0
  | c :: r =>
    if c = '-' then (jsUnsignedVal r).map (fun q => -q)
    else if c = '+' then jsUnsignedVal r
    else jsUnsignedVal (c :: r)

/-- `Number()` on a string. -/
def jsNumber (s : String) : JSNum := jsNumberChars s.data

/-- `Number()` on a possibly-undefined string: `Number(undefined)` is `NaN`. -/
def jsNumberOpt : Option String → JSNum
  | none => none
  | some s => jsNumber s

/-- JavaScript truthiness of a nullable string: `null`, `undefined` and
`""` are falsy. -/
def jsStrTruthy : Option String → Bool
  | none => false
  | some s => !(s == "")

/-- `v || undefined` on a nullable string: an absent or empty value becomes
absent. -/
def jsOrNone : Option String → Option String
  | none => none
  | some s => if s = "" then none else some s

/-- `v || dflt` on a nullable string. -/
def jsOrStr (v : Option String) (dflt : String) : String :=
  match v with
  | none => dflt
  | some s => if s = "" then dflt else s

/-- `n || 1` on a JavaScript number: `NaN` and `0` are falsy. -/
def jsNumOr1 (v : JSNum) : ℚ :=
  match v with
  | none => 1
  | some q => if q = 0 then 1 else q

example : jsNumber "25" = some 25 := by
  simp +decide [jsNumber, jsNumberChars, jsUnsignedVal, parseDigitsVal, charVal,
    isDigitChar, List.takeWhile, List.dropWhile]

example : jsNumber "-3" = some (-3) := by
  simp +decide [jsNumber, jsNumberChars, jsUnsignedVal, parseDigitsVal, charVal,
    isDigitChar, List.takeWhile, List.dropWhile]

example : jsNumber "abc" = none := by
  simp +decide [jsNumber, jsNumberChars, jsUnsignedVal, parseDigitsVal, charVal,
    isDigitChar, List.takeWhile, List.dropWhile]

example : jsNumber "2.5" = some (5 / 2) := by
  simp +decide [jsNumber, jsNumberChars, jsUnsignedVal, parseDigitsVal, charVal,
    isDigitChar, List.takeWhile, List.dropWhile]
  norm_num

example : natToString 120 = "120" := by decide

/-!
## Cursor-history ledger (`src/unnamed/part_008`, component `ConvexTable`)

The server component decodes the `cursors` URL parameter into a list of
nullable cursor tokens, clamps the requested page, looks up the cursor for
the effective page, fetches, and conditionally appends the backend's
`continueCursor`.
-/

/-- A nullable pagination cursor: `none` is JavaScript `null`. -/
abbrev Cursor := Option String

/-- `String.prototype.split(",")` at the character level: always returns at
least one (possibly empty) chunk. -/
def splitCommaChars : List Char → List (List Char)
  | [] => [[]]
  | c :: rest =>
    if c = ',' then [] :: splitCommaChars rest
    else
      match splitCommaChars rest with
      | [] => [[c]]
      | p :: ps => (c :: p) :: ps

/-- `Array.prototype.join(",")` at the character level. -/
def joinCommaChars : List (List Char) → List Char
  | [] => []
  | [p] => p
  | p :: q :: ps => p ++ ',' :: joinCommaChars (q :: ps)

/-- The decoding `(c) => (c === "null" ? null : c)` applied to one token. -/
def decodeToken (t : List Char) : Cursor :=
  if t = "null".data then none else some ⟨t⟩

/-- Decoding of the `cursors` parameter:
`cursorsParam.split(",").map((c) => (c === "null" ? null : c))`. -/
def decodeCursors (s : String) : List Cursor :=
  (splitCommaChars s.data).map decodeToken

/-- The token a cursor serializes to: `c || "null"`. -/
def cursorToken (c : Cursor) : List Char :=
  match c with
  | none => "null".data
  | some s => if s = "" then "null".data else s.data

/-- Encoding of a cursor history:
`updatedCursorHistory.map((c) => c || "null").join(",")`. -/
def encodeCursors (h : List Cursor) : String :=
  ⟨joinCommaChars (h.map cursorToken)⟩

/-- `params.cursors || "null"` followed by decoding: the cursor history the
page works with. -/
def cursorHistoryOf (cursorsP : Option String) : List Cursor :=
  decodeCursors (jsOrStr cursorsP "null")

/-- `const requestedPage = Number(params.page) || 1`. -/
def requestedPageOf (pageParam : Option String) : ℚ :=
  jsNumOr1 (jsNumberOpt pageParam)

/-- `Math.max(1, Math.min(requestedPage, cursorHistory.length))`. -/
def clampPage (requested : ℚ) (len : ℕ) : ℚ :=
  max 1 (min requested (len : ℚ))

/-- The effective current page of the cursor-mode table for a raw `page`
parameter and a decoded history. -/
def currentPageOf (pageParam : Option String) (hist : List Cursor) : ℚ :=
  clampPage (requestedPageOf pageParam) hist.length

/-- JavaScript array indexing by an arbitrary number: defined (`some`) only
for an integral index within bounds, else `undefined` (`none`). -/
def jsIndex (h : List Cursor) (q : ℚ) : Option Cursor :=
  if hq : q.den = 1 ∧ 0 ≤ q.num ∧ q.num.toNat < h.length then
    some (h.get ⟨q.num.toNat, hq.2.2⟩)
  else none

/-- `const cursor = cursorHistory[currentPage - 1] || null`. -/
def currentCursorOf (hist : List Cursor) (currentPage : ℚ) : Cursor :=
  match jsIndex hist (currentPage - 1) with
  | none => none
  | some c => jsOrNone c

/-- The part of the Convex pagination response the ledger logic reads. -/
structure PaginationResult where
  continueCursor : Cursor
  isDone : Bool

/-- The extension step of `part_008`: start from a copy of the history and
push `continueCursor` exactly when
`users.continueCursor && currentPage === cursorHistory.length && !users.isDone`. -/
def updatedCursorHistory (hist : List Cursor) (currentPage : ℚ)
    (res : PaginationResult) : List Cursor :=
  if jsStrTruthy res.continueCursor = true ∧ currentPage = (hist.length : ℚ) ∧
      res.isDone = false then
    hist ++ [res.continueCursor]
  else hist

/-- `const maxPageReached = updatedCursorHistory.length`. -/
def maxPageReached (hist : List Cursor) (currentPage : ℚ)
    (res : PaginationResult) : ℕ :=
  (updatedCursorHistory hist currentPage res).length

example : cursorHistoryOf (some "null,5,12") = [none, some "5", some "12"] := by
  decide

/-!
## Table state and its operations
(`src/packages/convex-table/src/react/useTableState.ts`)
-/

/-- Sort direction: the `"asc" | "desc"` union. -/
inductive SortOrder where
  | asc
  | desc
deriving DecidableEq, Repr

/-- The `TableState` record of `useTableState.ts` / `shared/types.ts`.
JavaScript numbers are `ℚ`; optional strings are `Option String`. -/
@[ext]
structure TableState where
  page : ℚ
  pageSize : ℚ
  sortBy : Option String
  sortOrder : SortOrder
  search : Option String
deriving DecidableEq, Repr

/-- `DEFAULT_STATE` of `useTableState.ts`. -/
def DEFAULT_STATE : TableState :=
  { page := 1, pageSize := 10, sortBy := none, sortOrder := .asc, search := none }

/-- `setPage`: `{ ...prev, page: Math.max(1, page) }`. -/
def setPage (s : TableState) (page : ℚ) : TableState :=
  { s with page := max 1 page }

/-- `setPageSize`: `{ ...prev, pageSize: Math.max(1, pageSize), page: 1 }`. -/
def setPageSize (s : TableState) (pageSize : ℚ) : TableState :=
  { s with pageSize := max 1 pageSize, page := 1 }

/-- `setSort`: `{ ...prev, sortBy, sortOrder: sortOrder || "asc" }`. -/
def setSort (s : TableState) (sortBy : Option String)
    (sortOrder : Option SortOrder) : TableState :=
  { s with sortBy := sortBy, sortOrder := sortOrder.getD .asc }

/-- `toggleSort`: same column cycles asc → desc → unsorted, a different
column starts at asc. -/
def toggleSort (s : TableState) (columnKey : String) : TableState :=
  if s.sortBy = some columnKey then
    if s.sortOrder = .asc then
      { s with sortBy := some columnKey, sortOrder := .desc }
    else
      { s with sortBy := none, sortOrder := .asc }
  else
    { s with sortBy := some columnKey, sortOrder := .asc }

/-- `setSearch`: `{ ...prev, search: search || undefined, page: 1 }`. -/
def setSearch (s : TableState) (search : String) : TableState :=
  { s with search := if search = "" then none else some search, page := 1 }

/-- `reset`: back to `DEFAULT_STATE`. -/
def resetState (_ : TableState) : TableState := DEFAULT_STATE

/-!
## URL-parameter parsing and building (`src/unnamed/part_009`)
-/

/-- The `TableSearchParams` record: raw, possibly-absent string values of
the five table URL parameters. -/
@[ext]
structure TableSearchParams where
  page : Option String
  pageSize : Option String
  sortBy : Option String
  sortOrder : Option String
  search : Option String
deriving DecidableEq, Repr

/-- `parseTableParams` of `part_009`: `Number()` each numeric parameter,
default `page` to 1 and `pageSize` to 10 on `NaN` or a value below 1,
accept `sortOrder` only when it is exactly `"asc"` or `"desc"`, and pass
`sortBy`/`search` through `|| undefined`. -/
def parseTableParams (sp : TableSearchParams) : TableState :=
  let pageNum := jsNumberOpt sp.page
  let page : ℚ :=
    match pageNum with
    | none => 1
    | some q => if q < 1 then 1 else q
  let pageSizeNum := jsNumberOpt sp.pageSize
  let pageSize : ℚ :=
    match pageSizeNum with
    | none => 10
    | some q => if q < 1 then 10 else q
  let sortOrder : SortOrder :=
    if sp.sortOrder = some "asc" then .asc
    else if sp.sortOrder = some "desc" then .desc
    else .asc
  { page := page, pageSize := pageSize, sortBy := jsOrNone sp.sortBy,
    sortOrder := sortOrder, search := jsOrNone sp.search }

/-- A `Partial<TableState>`: every field may be absent. -/
@[ext]
structure PartialTableState where
  page : Option ℚ
  pageSize : Option ℚ
  sortBy : Option String
  sortOrder : Option SortOrder
  search : Option String
deriving DecidableEq, Repr

/-- View of a full `TableState` as a `Partial<TableState>` argument. -/
def TableState.toPartialState (s : TableState) : PartialTableState :=
  { page := some s.page, pageSize := some s.pageSize, sortBy := s.sortBy,
    sortOrder := some s.sortOrder, search := s.search }

/-- `buildTableParams` of `part_009`: set each parameter only when it is
present and differs from its default (`page` 1, `pageSize` 10, `sortOrder`
`"asc"`), and only set truthy `sortBy`/`search`. -/
def buildTableParams (st : PartialTableState) : TableSearchParams :=
  { page :=
      match st.page with
      | none => none
      | some q => if q = 1 then none else some (jsNumToString q)
    pageSize :=
      match st.pageSize with
      | none => none
      | some q => if q = 10 then none else some (jsNumToString q)
    sortBy := jsOrNone st.sortBy
    sortOrder :=
      match st.sortOrder with
      | some .desc => some "desc"
      | _ => none
    search := jsOrNone st.search }

/-!
## Cursor-mode pagination views

Two components render cursor-mode pagination controls from
`(hasMore, currentPage, maxPageReached)`:

* `src/unnamed/part_000` (`TablePagination`, cursor branch), whose
  First/Previous buttons are disabled exactly on `currentPage === 1` and
  whose display text is `Page {currentPage} of {maxPageReached}`;
* `src/packages/convex-table/src/react/TablePagination.tsx`, which also
  appends `"+"` to the display text when `hasMore`.
-/

/-- The navigation affordances and display text a cursor-mode pagination
component renders. -/
structure CursorPaginationView where
  firstEnabled : Bool
  previousEnabled : Bool
  nextEnabled : Bool
  displayText : String
deriving DecidableEq, Repr

/-- The cursor branch of `TablePagination` in `src/unnamed/part_000`. -/
def cursorPaginationView (hasMore : Bool) (currentPage maxPage : ℚ) :
    CursorPaginationView :=
  let isFirstPage : Bool := decide (currentPage = 1)
  let canGoNext : Bool := hasMore || decide (currentPage < maxPage)
  { firstEnabled := !isFirstPage
    previousEnabled := !isFirstPage
    nextEnabled := canGoNext
    displayText :=
      "Page " ++ jsNumToString currentPage ++ " of " ++ jsNumToString maxPage }

/-- `TablePagination` in `react/TablePagination.tsx`: `canGoPrevious` and
`canGoFirst` are `currentPage > 1`, and the display text gets a `"+"`
suffix when `hasMore`. -/
def reactCursorPaginationView (hasMore : Bool) (currentPage maxPage : ℚ) :
    CursorPaginationView :=
  { firstEnabled := decide (1 < currentPage)
    previousEnabled := decide (1 < currentPage)
    nextEnabled := hasMore || decide (currentPage < maxPage)
    displayText :=
      "Page " ++ jsNumToString currentPage ++ " of " ++ jsNumToString maxPage
        ++ (if hasMore then "+" else "") }

/-!
## Supporting lemmas
-/

lemma charVal_digitChar {d : ℕ} (hd : d < 10) : charVal (digitChar d) = d := by
  interval_cases d <;> decide

lemma isDigitChar_digitChar {d : ℕ} (hd : d < 10) :
    isDigitChar (digitChar d) = true := by
  interval_cases d <;> decide

lemma parseDigitsVal_append_singleton (l : List Char) (c : Char) :
    parseDigitsVal (l ++ [c]) = parseDigitsVal l * 10 + charVal c := by
  unfold parseDigitsVal
  rw [List.foldl_append]
  rfl

lemma natToCharsAux_zero (fuel : ℕ) : natToCharsAux fuel 0 = [] := by
  cases fuel <;> rfl

lemma natToCharsAux_spec :
    ∀ fuel n, 0 < n → n ≤ fuel →
      parseDigitsVal (natToCharsAux fuel n) = n ∧
      (natToCharsAux fuel n).all isDigitChar = true ∧
      natToCharsAux fuel n ≠ [] := by
  intro fuel
  induction fuel with
  | zero => intro n h1 h2; omega
  | succ f ih =>
    intro n h1 _
    obtain ⟨m, rfl⟩ : ∃ m, n = m + 1 := ⟨n - 1, by omega⟩
    have hunf : natToCharsAux (f + 1) (m + 1)
        = natToCharsAux f ((m + 1) / 10) ++ [digitChar ((m + 1) % 10)] := rfl
    have hr : (m + 1) % 10 < 10 := Nat.mod_lt _ (by norm_num)
    rw [hunf]
    by_cases hq : (m + 1) / 10 = 0
    · rw [hq, natToCharsAux_zero]
      refine ⟨?_, ?_, by simp⟩
      · simp only [List.nil_append, parseDigitsVal, List.foldl_cons,
          List.foldl_nil, charVal_digitChar hr]
        omega
      · simp [isDigitChar_digitChar hr]
    · have hqf : (m + 1) / 10 ≤ f := by
        have := Nat.div_lt_self (Nat.succ_pos m) (by norm_num : (1:ℕ) < 10)
        omega
      obtain ⟨hval, hall, hne⟩ := ih ((m + 1) / 10) (Nat.pos_of_ne_zero hq) hqf
      refine ⟨?_, ?_, by simp⟩
      · rw [parseDigitsVal_append_singleton, hval, charVal_digitChar hr]
        omega
      · simp only [List.all_append, hall, Bool.true_and, List.all_cons,
          List.all_nil, Bool.and_true]
        exact isDigitChar_digitChar hr

lemma parseDigitsVal_natToChars (n : ℕ) :
    parseDigitsVal (natToChars n) = n := by
  unfold natToChars
  by_cases h : n = 0
  · subst h; decide
  · rw [if_neg h]
    exact (natToCharsAux_spec n n (Nat.pos_of_ne_zero h) le_rfl).1

lemma natToChars_all_digits (n : ℕ) :
    (natToChars n).all isDigitChar = true := by
  unfold natToChars
  by_cases h : n = 0
  · subst h; decide
  · rw [if_neg h]
    exact (natToCharsAux_spec n n (Nat.pos_of_ne_zero h) le_rfl).2.1

lemma natToChars_ne_nil (n : ℕ) : natToChars n ≠ [] := by
  unfold natToChars
  by_cases h : n = 0
  · subst h; simp
  · rw [if_neg h]
    exact (natToCharsAux_spec n n (Nat.pos_of_ne_zero h) le_rfl).2.2

lemma takeWhile_of_all {l : List Char} (h : l.all isDigitChar = true) :
    l.takeWhile isDigitChar = l := by
  induction l with
  | nil => rfl
  | cons c t ih =>
    simp only [List.all_cons, Bool.and_eq_true] at h
    simp [List.takeWhile_cons, h.1, ih h.2]

lemma dropWhile_of_all {l : List Char} (h : l.all isDigitChar = true) :
    l.dropWhile isDigitChar = [] := by
  induction l with
  | nil => rfl
  | cons c t ih =>
    simp only [List.all_cons, Bool.and_eq_true] at h
    simp [List.dropWhile_cons, h.1, ih h.2]

lemma jsUnsignedVal_of_digits {l : List Char} (hne : l ≠ [])
    (h : l.all isDigitChar = true) :
    jsUnsignedVal l = some (parseDigitsVal l : ℚ) := by
  unfold jsUnsignedVal
  rw [dropWhile_of_all h]
  simp [takeWhile_of_all h, hne]

lemma ne_sign_of_digit {c : Char} (h : isDigitChar c = true) :
    c ≠ '-' ∧ c ≠ '+' := by
  constructor <;> · intro he; subst he; simp [isDigitChar] at h

lemma jsNumberChars_of_digits {l : List Char} (hne : l ≠ [])
    (h : l.all isDigitChar = true) :
    jsNumberChars l = some (parseDigitsVal l : ℚ) := by
  match l, hne with
  | c :: r, _ =>
    have hc : isDigitChar c = true := by
      simp only [List.all_cons, Bool.and_eq_true] at h
      exact h.1
    obtain ⟨h1, h2⟩ := ne_sign_of_digit hc
    show (if c = '-' then _ else if c = '+' then _ else jsUnsignedVal (c :: r)) = _
    rw [if_neg h1, if_neg h2]
    exact jsUnsignedVal_of_digits (by simp) h

lemma jsNumber_natToString (n : ℕ) : jsNumber (natToString n) = some (n : ℚ) := by
  unfold jsNumber natToString
  show jsNumberChars (natToChars n) = _
  rw [jsNumberChars_of_digits (natToChars_ne_nil n) (natToChars_all_digits n),
    parseDigitsVal_natToChars]

lemma jsNumToString_natCast (n : ℕ) : jsNumToString (n : ℚ) = natToString n := by
  unfold jsNumToString
  rw [if_pos (Rat.den_natCast n)]
  unfold intToString
  rw [Rat.num_natCast]
  rw [if_neg (by exact_mod_cast Int.not_lt.mpr (Int.natCast_nonneg n))]
  simp

lemma splitCommaChars_ne_nil (l : List Char) : splitCommaChars l ≠ [] := by
  cases l with
  | nil => simp [splitCommaChars]
  | cons c t =>
    unfold splitCommaChars
    by_cases h : c = ','
    · simp [h]
    · rw [if_neg h]
      cases splitCommaChars t <;> simp

lemma splitCommaChars_of_no_comma {t : List Char} (h : ',' ∉ t) :
    splitCommaChars t = [t] := by
  induction t with
  | nil => rfl
  | cons c u ih =>
    have hc : c ≠ ',' := fun he => h (he ▸ List.mem_cons_self c u)
    have hu : ',' ∉ u := fun hm => h (List.mem_cons_of_mem c hm)
    unfold splitCommaChars
    rw [if_neg hc, ih hu]

lemma splitCommaChars_append_comma {t : List Char} (rest : List Char)
    (h : ',' ∉ t) :
    splitCommaChars (t ++ ',' :: rest) = t :: splitCommaChars rest := by
  induction t with
  | nil => simp [splitCommaChars]
  | cons c u ih =>
    have hc : c ≠ ',' := fun he => h (he ▸ List.mem_cons_self c u)
    have hu : ',' ∉ u := fun hm => h (List.mem_cons_of_mem c hm)
    have step : splitCommaChars (c :: (u ++ ',' :: rest))
        = match splitCommaChars (u ++ ',' :: rest) with
          | [] => [[c]]
          | p :: ps => (c :: p) :: ps := by
      simp [splitCommaChars, hc]
    show splitCommaChars (c :: (u ++ ',' :: rest)) = _
    rw [step, ih hu]

lemma cursorToken_no_comma {c : Cursor}
    (hok : ∀ s, c = some s → ',' ∉ s.data) : ',' ∉ cursorToken c := by
  cases c with
  | none => decide
  | some s =>
    by_cases hs : s = ""
    · subst hs; simp [cursorToken]
    · simpa [cursorToken, hs] using hok s rfl

lemma decodeToken_cursorToken {c : Cursor}
    (hok : ∀ s, c = some s → s ≠ "" ∧ s ≠ "null") :
    decodeToken (cursorToken c) = c := by
  cases c with
  | none => decide
  | some s =>
    obtain ⟨hne, hnull⟩ := hok s rfl
    have hd : s.data ≠ "null".data := fun he => hnull (congrArg String.mk he)
    simp [cursorToken, decodeToken, hne, hd]

lemma split_join_tokens :
    ∀ h : List Cursor, h ≠ [] →
      (∀ c ∈ h, ',' ∉ cursorToken c) →
      splitCommaChars (joinCommaChars (h.map cursorToken)) = h.map cursorToken := by
  intro h
  induction h with
  | nil => intro hne; exact absurd rfl hne
  | cons c t ih =>
    intro _ hok
    cases t with
    | nil =>
      show splitCommaChars (joinCommaChars [cursorToken c]) = _
      show splitCommaChars (cursorToken c) = _
      rw [splitCommaChars_of_no_comma (hok c (List.mem_cons_self c []))]
      simp
    | cons d u =>
      show splitCommaChars
          (cursorToken c ++ ',' :: joinCommaChars ((d :: u).map cursorToken)) = _
      rw [splitCommaChars_append_comma _ (hok c (List.mem_cons_self c _))]
      rw [ih (by simp) (fun x hx => hok x (List.mem_cons_of_mem c hx))]
      simp

lemma length_decodeCursors_pos (s : String) : 0 < (decodeCursors s).length := by
  unfold decodeCursors
  rw [List.length_map]
  exact List.length_pos.mpr (splitCommaChars_ne_nil s.data)

lemma length_cursorHistoryOf_pos (p : Option String) :
    0 < (cursorHistoryOf p).length :=
  length_decodeCursors_pos _

lemma jsStrTruthy_eq_true_iff (c : Option String) :
    jsStrTruthy c = true ↔ ∃ s, c = some s ∧ s ≠ "" := by
  cases c <;> simp [jsStrTruthy]

lemma length_le_updatedCursorHistory (hist : List Cursor) (p : ℚ)
    (res : PaginationResult) :
    hist.length ≤ (updatedCursorHistory hist p res).length := by
  unfold updatedCursorHistory
  split <;> simp

/-!
## Claims
-/

/-- C1: For every raw `page` parameter (numeric, zero, negative or
non-numeric) and every decoded cursor history, the cursor-mode table's
effective current page equals `max 1 (min requestedPage historyLength)`,
and it always satisfies `1 ≤ effectivePage ≤ maxPageReached`.  Concretely,
history string `"null,5,12"` with requested page 5 clamps to effective
page 3, whose cursor is the token `"12"`. -/
theorem effectivePage_clamped (pageParam cursorsP : Option String)
    (res : PaginationResult) :
    (∀ q : ℚ, jsNumberOpt pageParam = some q →
      currentPageOf pageParam (cursorHistoryOf cursorsP)
        = max 1 (min q ((cursorHistoryOf cursorsP).length : ℚ)))
    ∧ 1 ≤ currentPageOf pageParam (cursorHistoryOf cursorsP)
    ∧ currentPageOf pageParam (cursorHistoryOf cursorsP)
        ≤ (maxPageReached (cursorHistoryOf cursorsP)
            (currentPageOf pageParam (cursorHistoryOf cursorsP)) res : ℚ)
    ∧ currentPageOf (some "5") (cursorHistoryOf (some "null,5,12")) = 3
    ∧ currentCursorOf (cursorHistoryOf (some "null,5,12"))
        (currentPageOf (some "5") (cursorHistoryOf (some "null,5,12")))
      = some "12" := by
  have hlen1 : 1 ≤ ((cursorHistoryOf cursorsP).length : ℚ) := by
    exact_mod_cast length_cursorHistoryOf_pos cursorsP
  have hle : currentPageOf pageParam (cursorHistoryOf cursorsP)
      ≤ ((cursorHistoryOf cursorsP).length : ℚ) := by
    unfold currentPageOf clampPage
    exact max_le hlen1 (min_le_right _ _)
  have hhist : cursorHistoryOf (some "null,5,12")
      = [none, some "5", some "12"] := by decide
  have h5 : jsNumberOpt (some "5") = some 5 := by
    simp +decide [jsNumberOpt, jsNumber, jsNumberChars, jsUnsignedVal,
      parseDigitsVal, charVal, isDigitChar, List.takeWhile, List.dropWhile]
  have hcp : currentPageOf (some "5") (cursorHistoryOf (some "null,5,12")) = 3 := by
    rw [hhist]
    unfold currentPageOf requestedPageOf clampPage
    rw [h5]
    unfold jsNumOr1
    norm_num
  refine ⟨?_, le_max_left _ _, ?_, hcp, ?_⟩
  · intro q hq
    unfold currentPageOf requestedPageOf clampPage
    rw [hq]
    simp only [jsNumOr1]
    by_cases h0 : q = 0
    · subst h0
      rw [if_pos rfl, max_eq_left (min_le_left _ _),
        max_eq_left ((min_le_left _ _).trans (by norm_num))]
    · rw [if_neg h0]
  · refine hle.trans ?_
    exact_mod_cast length_le_updatedCursorHistory _ _ _
  · rw [hcp, hhist]
    unfold currentCursorOf
    have h2 : (3 : ℚ) - 1 = 2 := by norm_num
    rw [h2]
    unfold jsIndex
    rw [dif_pos ⟨rfl, by decide, by decide⟩]
    decide

/-- C1 witness: a concrete instantiation — with history `"null,a"` and
requested page `"7"`, the effective page is `max 1 (min 7 2)`. -/
theorem effectivePage_clamped_witness :
    currentPageOf (some "7") (cursorHistoryOf (some "null,a"))
      = max 1 (min 7 ((cursorHistoryOf (some "null,a")).length : ℚ)) :=
  (effectivePage_clamped (some "7") (some "null,a")
    ⟨some "c", false⟩).1 7 (by
      simp +decide [jsNumberOpt, jsNumber, jsNumberChars, jsUnsignedVal,
        parseDigitsVal, charVal, isDigitChar, List.takeWhile, List.dropWhile])

/-- C2: the backend's `continueCursor` is appended to the cursor history
exactly when the effective page sits at the frontier (equals the history
length), the cursor is present — non-null and non-empty, the JavaScript
truthiness test of the source — and `isDone` is false; nothing else ever
changes the history, and whenever `isDone` is true the post-fetch
`maxPageReached` equals the pre-fetch history length. -/
theorem updatedCursorHistory_extension (hist : List Cursor) (page : ℚ)
    (res : PaginationResult) :
    (updatedCursorHistory hist page res = hist ++ [res.continueCursor]
      ↔ (∃ s, res.continueCursor = some s ∧ s ≠ "")
          ∧ page = (hist.length : ℚ) ∧ res.isDone = false)
    ∧ (updatedCursorHistory hist page res = hist ++ [res.continueCursor]
        ∨ updatedCursorHistory hist page res = hist)
    ∧ (res.isDone = true → maxPageReached hist page res = hist.length) := by
  unfold maxPageReached updatedCursorHistory
  by_cases hcond : jsStrTruthy res.continueCursor = true
      ∧ page = (hist.length : ℚ) ∧ res.isDone = false
  · rw [if_pos hcond]
    refine ⟨⟨fun _ => ⟨(jsStrTruthy_eq_true_iff _).mp hcond.1, hcond.2⟩,
      fun _ => rfl⟩, Or.inl rfl, ?_⟩
    intro hdone
    exact absurd (hcond.2.2.symm.trans hdone) (by simp)
  · rw [if_neg hcond]
    refine ⟨⟨fun heq => ?_, fun hc => ?_⟩, Or.inr rfl, fun _ => rfl⟩
    · exfalso
      have := congrArg List.length heq
      simp at this
    · exact absurd ⟨(jsStrTruthy_eq_true_iff _).mpr hc.1, hc.2⟩ hcond

/-- C2 witness: with `isDone = true` the fetch leaves the single-entry
history at length 1. -/
theorem updatedCursorHistory_extension_witness :
    maxPageReached [none] 1 ⟨some "c2", true⟩ = 1 :=
  (updatedCursorHistory_extension [none] 1 ⟨some "c2", true⟩).2.2 rfl

/-- C3 counterexample: page 1 of the single-entry history `"null"` is an
index ≤ the history length, yet fetching it with a backend response that
carries a next cursor and `isDone = false` grows `maxPageReached` from
1 to 2 — the claim's bound `≤` is wrong at the frontier. -/
theorem frontier_visit_changes_maxPageReached :
    currentPageOf (some "1") (cursorHistoryOf (some "null")) = 1
    ∧ (cursorHistoryOf (some "null")).length = 1
    ∧ maxPageReached (cursorHistoryOf (some "null")) 1 ⟨some "c2", false⟩ = 2 := by
  have hhist : cursorHistoryOf (some "null") = [none] := by decide
  have h1 : jsNumberOpt (some "1") = some 1 := by
    simp +decide [jsNumberOpt, jsNumber, jsNumberChars, jsUnsignedVal,
      parseDigitsVal, charVal, isDigitChar, List.takeWhile, List.dropWhile]
  refine ⟨?_, by rw [hhist]; rfl, ?_⟩
  · rw [hhist]
    unfold currentPageOf requestedPageOf clampPage
    rw [h1]
    unfold jsNumOr1
    norm_num
  · rw [hhist]
    unfold maxPageReached updatedCursorHistory
    rw [if_pos ⟨by decide, by norm_num, rfl⟩]
    rfl

/-- C3 amended: fetching an effective page strictly below the current
history length never changes `maxPageReached`, whatever the backend
returns; and in every case — frontier visits included — each previously
recorded history entry is unchanged (entries are append-only). -/
theorem revisit_preserves_history (page : ℚ) (hist : List Cursor)
    (res : PaginationResult) :
    (page < (hist.length : ℚ) → maxPageReached hist page res = hist.length)
    ∧ ∀ i : ℕ, i < hist.length →
        (updatedCursorHistory hist page res)[i]? = hist[i]? := by
  unfold maxPageReached updatedCursorHistory
  constructor
  · intro hlt
    rw [if_neg]
    rintro ⟨-, heq, -⟩
    rw [heq] at hlt
    exact lt_irrefl _ hlt
  · intro i hi
    split
    · exact List.getElem?_append_left hi
    · rfl

/-- C3 amended witness: visiting page 1 of the two-entry history keeps
`maxPageReached` at 2 and entry 0 intact. -/
theorem revisit_preserves_history_witness :
    maxPageReached [none, some "a"] 1 ⟨some "x", false⟩ = 2
    ∧ (updatedCursorHistory [none, some "a"] 1 ⟨some "x", false⟩)[0]?
        = ([none, some "a"] : List Cursor)[0]? :=
  ⟨(revisit_preserves_history 1 [none, some "a"] ⟨some "x", false⟩).1
      (by norm_num),
    (revisit_preserves_history 1 [none, some "a"] ⟨some "x", false⟩).2 0
      (by norm_num)⟩

/-- C4 counterexample: the raw page value `"2.5"` does not parse as a
valid positive integer, yet `parseTableParams` returns page `5/2`, not
the claimed default 1 — the parser accepts any number ≥ 1, integral or
not. -/
theorem parseTableParams_fractional_page :
    (parseTableParams ⟨some "2.5", none, none, none, none⟩).page = 5 / 2
    ∧ (5 : ℚ) / 2 ≠ 1 := by
  constructor
  · have h : jsNumberOpt (some "2.5") = some (5 / 2) := by
      simp +decide [jsNumberOpt, jsNumber, jsNumberChars, jsUnsignedVal,
        parseDigitsVal, charVal, isDigitChar, List.takeWhile, List.dropWhile]
      norm_num
    unfold parseTableParams
    rw [h]
    norm_num
  · norm_num

/-- C4 amended: `parseTableParams` is a total function that defaults
`page` to 1 exactly when `Number(page)` is `NaN` or below 1 (any parsed
number ≥ 1, integral or not, is kept), defaults `pageSize` to 10 the same
way, accepts `sortOrder` only when it is exactly `"asc"` or `"desc"`, and
always returns `page ≥ 1` and `pageSize ≥ 1`; the documented example
`{page: "-3", pageSize: "abc"}` yields the all-defaults state with
`sortBy` and `search` absent. -/
theorem parseTableParams_defaults (sp : TableSearchParams) :
    ((jsNumberOpt sp.page = none ∨ ∃ q, jsNumberOpt sp.page = some q ∧ q < 1) →
      (parseTableParams sp).page = 1)
    ∧ (∀ q, jsNumberOpt sp.page = some q → 1 ≤ q →
        (parseTableParams sp).page = q)
    ∧ ((jsNumberOpt sp.pageSize = none
        ∨ ∃ q, jsNumberOpt sp.pageSize = some q ∧ q < 1) →
      (parseTableParams sp).pageSize = 10)
    ∧ (∀ q, jsNumberOpt sp.pageSize = some q → 1 ≤ q →
        (parseTableParams sp).pageSize = q)
    ∧ (sp.sortOrder ≠ some "asc" → sp.sortOrder ≠ some "desc" →
        (parseTableParams sp).sortOrder = .asc)
    ∧ 1 ≤ (parseTableParams sp).page
    ∧ 1 ≤ (parseTableParams sp).pageSize
    ∧ parseTableParams ⟨some "-3", some "abc", none, none, none⟩
        = { page := 1, pageSize := 10, sortBy := none, sortOrder := .asc,
            search := none } := by
  unfold parseTableParams
  refine ⟨?_, ?_, ?_, ?_, ?_, ?_, ?_, ?_⟩
  · rintro (hn | ⟨q, hq, hlt⟩)
    · rw [hn]
    · rw [hq]
      simp only [if_pos hlt]
  · intro q hq hge
    rw [hq]
    simp only [if_neg (not_lt.mpr hge)]
  · rintro (hn | ⟨q, hq, hlt⟩)
    · rw [hn]
    · rw [hq]
      simp only [if_pos hlt]
  · intro q hq hge
    rw [hq]
    simp only [if_neg (not_lt.mpr hge)]
  · intro h1 h2
    simp only [if_neg h1, if_neg h2]
  · cases hp : jsNumberOpt sp.page with
    | none => simp
    | some q =>
      simp only
      by_cases hlt : q < 1
      · simp [if_pos hlt]
      · simp only [if_neg hlt]
        exact not_lt.mp hlt
  · cases hp : jsNumberOpt sp.pageSize with
    | none => norm_num
    | some q =>
      simp only
      by_cases hlt : q < 1
      · rw [if_pos hlt]; norm_num
      · simp only [if_neg hlt]
        exact not_lt.mp hlt
  · have h3 : jsNumberOpt (some "-3") = some (-3) := by
      simp +decide [jsNumberOpt, jsNumber, jsNumberChars, jsUnsignedVal,
        parseDigitsVal, charVal, isDigitChar, List.takeWhile, List.dropWhile]
    have habc : jsNumberOpt (some "abc") = none := by
      simp +decide [jsNumberOpt, jsNumber, jsNumberChars, jsUnsignedVal,
        parseDigitsVal, charVal, isDigitChar, List.takeWhile, List.dropWhile]
    rw [h3, habc]
    norm_num [jsOrNone]
    simp

/-- C4 amended witness: at the concrete input `{page: "7"}` the parsed
page is the parsed value 7. -/
theorem parseTableParams_defaults_witness :
    (parseTableParams ⟨some "7", none, none, none, none⟩).page = 7 :=
  (parseTableParams_defaults ⟨some "7", none, none, none, none⟩).2.1 7
    (by
      simp +decide [jsNumberOpt, jsNumber, jsNumberChars, jsUnsignedVal,
        parseDigitsVal, charVal, isDigitChar, List.takeWhile, List.dropWhile])
    (by norm_num)

/-- C5 counterexample: the cursor token `"null"` (a legal opaque string)
does not round-trip — it encodes to the literal `"null"` and decodes back
to the absent cursor, so encode-then-decode is not the identity on every
sequence of cursor tokens. -/
theorem encodeCursors_not_injective :
    decodeCursors (encodeCursors [some "null"]) = [none]
    ∧ ([none] : List Cursor) ≠ [some "null"] := by decide

/-- C5 amended: encode-then-decode is the identity on every non-empty
cursor-history sequence whose present tokens are non-empty, differ from
the literal `"null"` and contain no comma (which holds of the all-null
base case and of opaque backend cursors). -/
theorem decodeCursors_encodeCursors (h : List Cursor) (hne : h ≠ [])
    (hok : ∀ s, some s ∈ h → s ≠ "" ∧ s ≠ "null" ∧ ',' ∉ s.data) :
    decodeCursors (encodeCursors h) = h := by
  unfold decodeCursors encodeCursors
  show (splitCommaChars (joinCommaChars (h.map cursorToken))).map decodeToken = h
  rw [split_join_tokens h hne (fun c hc =>
    cursorToken_no_comma (fun s hs => (hok s (hs ▸ hc)).2.2))]
  rw [List.map_map]
  have : ∀ c ∈ h, (decodeToken ∘ cursorToken) c = id c := by
    intro c hc
    show decodeToken (cursorToken c) = c
    exact decodeToken_cursorToken (fun s hs =>
      ⟨(hok s (hs ▸ hc)).1, (hok s (hs ▸ hc)).2.1⟩)
  rw [List.map_congr_left this, List.map_id]

/-- C5 amended witness: the two-entry history `[null, "a"]` round-trips. -/
theorem decodeCursors_encodeCursors_witness :
    decodeCursors (encodeCursors [none, some "a"]) = [none, some "a"] :=
  decodeCursors_encodeCursors [none, some "a"] (by simp)
    (by
      intro s hs
      simp only [List.mem_cons] at hs
      rcases hs with h | h | h
      · exact absurd h (by simp)
      · cases Option.some.inj h
        refine ⟨by decide, by decide, by decide⟩
      · simp at h)

/-- C6: in the cursor-mode pagination view of `part_000`, for every
`currentPage ≥ 1` and `maxPageReached ≥ 1`, Next is enabled exactly when
`hasMore` or `currentPage < maxPageReached`, and Previous and First are
each enabled exactly when `currentPage > 1`. -/
theorem cursorPagination_controls (hasMore : Bool) (cp mp : ℚ)
    (hcp : 1 ≤ cp) (_hmp : 1 ≤ mp) :
    (cursorPaginationView hasMore cp mp).nextEnabled
        = (hasMore || decide (cp < mp))
    ∧ (cursorPaginationView hasMore cp mp).previousEnabled = decide (1 < cp)
    ∧ (cursorPaginationView hasMore cp mp).firstEnabled = decide (1 < cp) := by
  unfold cursorPaginationView
  have hfirst : (!decide (cp = 1)) = decide (1 < cp) := by
    by_cases h : cp = 1
    · subst h; simp
    · have h1 : 1 < cp := lt_of_le_of_ne hcp (Ne.symm h)
      simp [h, h1]
  exact ⟨rfl, hfirst, hfirst⟩

/-- C6 witness: at `currentPage = 2`, `maxPageReached = 3`,
`hasMore = false`, Next is enabled (2 < 3) and Previous/First are
enabled (2 > 1). -/
theorem cursorPagination_controls_witness :
    (cursorPaginationView false 2 3).nextEnabled
        = (false || decide ((2:ℚ) < 3))
    ∧ (cursorPaginationView false 2 3).previousEnabled = decide ((1:ℚ) < 2)
    ∧ (cursorPaginationView false 2 3).firstEnabled = decide ((1:ℚ) < 2) :=
  cursorPagination_controls false 2 3 (by norm_num) (by norm_num)

/-- C7 counterexample: the cursor-mode display of the cited component
(`part_000`) is `"Page 2 of 5"` with `hasMore = true` — it carries no
`"+"` suffix and does not depend on `hasMore` at all. -/
theorem part000_display_lacks_plus :
    (cursorPaginationView true 2 5).displayText = "Page 2 of 5"
    ∧ (cursorPaginationView true 2 5).displayText
        = (cursorPaginationView false 2 5).displayText
    ∧ ('+' ∈ "Page 2 of 5".data) = False := by
  refine ⟨?_, rfl, by decide⟩
  decide

/-- C7 corrected: the react `TablePagination` display is the base text
`"Page {currentPage} of {maxPageReached}"` with a `"+"` suffix appended
exactly when `hasMore`; the `part_000` display equals that base text and
ignores `hasMore`, never carrying the suffix. -/
theorem cursorPagination_displayText (hasMore : Bool) (cp mp : ℚ) :
    (reactCursorPaginationView true cp mp).displayText
        = (reactCursorPaginationView false cp mp).displayText ++ "+"
    ∧ (reactCursorPaginationView false cp mp).displayText
        = (cursorPaginationView hasMore cp mp).displayText
    ∧ (cursorPaginationView true cp mp).displayText
        = (cursorPaginationView false cp mp).displayText := by
  unfold reactCursorPaginationView cursorPaginationView
  refine ⟨by simp, by simp, rfl⟩

/-- C8: the sort toggle sends `(sortBy, sortOrder)` to `(k, asc)` when a
different column `k` is clicked, `(k, desc)` from `(k, asc)`, and
`(unset, asc)` from `(k, desc)`; hence three clicks on the same column
from the unsorted state visit Ascending, then Descending, then return to
Unsorted. -/
theorem toggleSort_cycle (s : TableState) (k : String) :
    (s.sortBy ≠ some k →
      toggleSort s k = { s with sortBy := some k, sortOrder := .asc })
    ∧ (s.sortBy = some k → s.sortOrder = .asc →
      toggleSort s k = { s with sortBy := some k, sortOrder := .desc })
    ∧ (s.sortBy = some k → s.sortOrder = .desc →
      toggleSort s k = { s with sortBy := none, sortOrder := .asc })
    ∧ (s.sortBy = none →
        (toggleSort s k).sortBy = some k
        ∧ (toggleSort s k).sortOrder = .asc
        ∧ (toggleSort (toggleSort s k) k).sortBy = some k
        ∧ (toggleSort (toggleSort s k) k).sortOrder = .desc
        ∧ (toggleSort (toggleSort (toggleSort s k) k) k).sortBy = none
        ∧ (toggleSort (toggleSort (toggleSort s k) k) k).sortOrder = .asc) := by
  refine ⟨?_, ?_, ?_, ?_⟩
  · intro h
    rw [toggleSort, if_neg h]
  · intro h1 h2
    rw [toggleSort, if_pos h1, if_pos h2]
  · intro h1 h2
    rw [toggleSort, if_pos h1, if_neg (by rw [h2]; simp)]
  · intro h
    simp [toggleSort, h]

/-- C8 witness: the three-click cycle on column `"name"` starting from the
default (unsorted) state. -/
theorem toggleSort_cycle_witness :
    (toggleSort DEFAULT_STATE "name").sortBy = some "name"
    ∧ (toggleSort DEFAULT_STATE "name").sortOrder = .asc
    ∧ (toggleSort (toggleSort DEFAULT_STATE "name") "name").sortBy
        = some "name"
    ∧ (toggleSort (toggleSort DEFAULT_STATE "name") "name").sortOrder = .desc
    ∧ (toggleSort (toggleSort (toggleSort DEFAULT_STATE "name") "name")
        "name").sortBy = none
    ∧ (toggleSort (toggleSort (toggleSort DEFAULT_STATE "name") "name")
        "name").sortOrder = .asc :=
  (toggleSort_cycle DEFAULT_STATE "name").2.2.2 rfl

/-- C9: `setPageSize` and `setSearch` always reset `page` to 1, while
`setSort` and `toggleSort` leave `page` unchanged; setting the search text
`"hello"` while on page 4 yields page 1 with the new search text. -/
theorem page_reset_rules (s : TableState) (ps : ℚ) (txt : String)
    (sb : Option String) (so : Option SortOrder) (k : String) :
    (setPageSize s ps).page = 1
    ∧ (setSearch s txt).page = 1
    ∧ (setSort s sb so).page = s.page
    ∧ (toggleSort s k).page = s.page
    ∧ setSearch (⟨4, 10, none, .asc, none⟩ : TableState) "hello"
      = (⟨1, 10, none, .asc, some "hello"⟩ : TableState) := by
  refine ⟨rfl, rfl, rfl, ?_, ?_⟩
  · unfold toggleSort
    by_cases h1 : s.sortBy = some k
    · rw [if_pos h1]
      by_cases h2 : s.sortOrder = .asc
      · rw [if_pos h2]
      · rw [if_neg h2]
    · rw [if_neg h1]
  · unfold setSearch
    simp

/-- C10: `buildTableParams` omits exactly the parameters that equal their
defaults (`page` 1, `pageSize` 10, `sortOrder` `"asc"`, and absent or
empty `sortBy`/`search`), and parsing the parameters built from any valid
table state (integral `page ≥ 1`, integral `pageSize ≥ 1`,
`sortBy`/`search` absent or non-empty) returns exactly that state. -/
theorem buildTableParams_roundtrip (p : PartialTableState) (s : TableState)
    (hp : ∃ n : ℕ, 1 ≤ n ∧ s.page = (n : ℚ))
    (hps : ∃ n : ℕ, 1 ≤ n ∧ s.pageSize = (n : ℚ))
    (hsb : s.sortBy ≠ some "") (hse : s.search ≠ some "") :
    ((buildTableParams p).page = none ↔ p.page = none ∨ p.page = some 1)
    ∧ ((buildTableParams p).pageSize = none
        ↔ p.pageSize = none ∨ p.pageSize = some 10)
    ∧ ((buildTableParams p).sortOrder = none ↔ p.sortOrder ≠ some .desc)
    ∧ ((buildTableParams p).sortBy = none
        ↔ p.sortBy = none ∨ p.sortBy = some "")
    ∧ ((buildTableParams p).search = none
        ↔ p.search = none ∨ p.search = some "")
    ∧ parseTableParams (buildTableParams (TableState.toPartialState s)) = s := by
  obtain ⟨n, hn1, hpage⟩ := hp
  obtain ⟨m, hm1, hpsize⟩ := hps
  have hone : (1 : ℚ) ≤ (n : ℚ) := by exact_mod_cast hn1
  have hmone : (1 : ℚ) ≤ (m : ℚ) := by exact_mod_cast hm1
  refine ⟨?_, ?_, ?_, ?_, ?_, ?_⟩
  · cases hq : p.page with
    | none => simp [buildTableParams, hq]
    | some q =>
      by_cases h1 : q = 1
      · subst h1; simp [buildTableParams, hq]
      · simp [buildTableParams, hq, h1]
  · cases hq : p.pageSize with
    | none => simp [buildTableParams, hq]
    | some q =>
      by_cases h1 : q = 10
      · subst h1; simp [buildTableParams, hq]
      · simp [buildTableParams, hq, h1]
  · cases ho : p.sortOrder with
    | none => simp [buildTableParams, ho]
    | some o => cases o <;> simp [buildTableParams, ho]
  · cases hb : p.sortBy with
    | none => simp [buildTableParams, hb, jsOrNone]
    | some t =>
      by_cases ht : t = ""
      · subst ht; simp [buildTableParams, hb, jsOrNone]
      · simp [buildTableParams, hb, jsOrNone, ht]
  · cases hb : p.search with
    | none => simp [buildTableParams, hb, jsOrNone]
    | some t =>
      by_cases ht : t = ""
      · subst ht; simp [buildTableParams, hb, jsOrNone]
      · simp [buildTableParams, hb, jsOrNone, ht]
  · apply TableState.ext
    · simp only [parseTableParams, buildTableParams, TableState.toPartialState]
      by_cases h1 : s.page = 1
      · rw [if_pos h1, h1]
        rfl
      · rw [if_neg h1, hpage, jsNumToString_natCast]
        have hjs : jsNumberOpt (some (natToString n)) = some ((n : ℕ) : ℚ) :=
          jsNumber_natToString n
        rw [hjs]
        show (if ((n : ℕ) : ℚ) < 1 then (1 : ℚ) else ((n : ℕ) : ℚ)) = _
        rw [if_neg (not_lt.mpr hone)]
    · simp only [parseTableParams, buildTableParams, TableState.toPartialState]
      by_cases h1 : s.pageSize = 10
      · rw [if_pos h1, h1]
        rfl
      · rw [if_neg h1, hpsize, jsNumToString_natCast]
        have hjs : jsNumberOpt (some (natToString m)) = some ((m : ℕ) : ℚ) :=
          jsNumber_natToString m
        rw [hjs]
        show (if ((m : ℕ) : ℚ) < 1 then (10 : ℚ) else ((m : ℕ) : ℚ)) = _
        rw [if_neg (not_lt.mpr hmone)]
    · simp only [parseTableParams, buildTableParams, TableState.toPartialState]
      cases hb : s.sortBy with
      | none => simp [jsOrNone]
      | some t =>
        have ht : t ≠ "" := fun he => hsb (by rw [hb, he])
        simp [jsOrNone, ht]
    · have hor : s.sortOrder = SortOrder.asc ∨ s.sortOrder = SortOrder.desc := by
        cases s.sortOrder
        · exact Or.inl rfl
        · exact Or.inr rfl
      simp only [parseTableParams, buildTableParams, TableState.toPartialState]
      rcases hor with h | h <;> simp [h]
    · simp only [parseTableParams, buildTableParams, TableState.toPartialState]
      cases hb : s.search with
      | none => simp [jsOrNone]
      | some t =>
        have ht : t ≠ "" := fun he => hse (by rw [hb, he])
        simp [jsOrNone, ht]

/-- C10 witness: the concrete valid state
`(page 3, pageSize 20, sortBy "name", desc, search "bob")` round-trips
through build-then-parse. -/
theorem buildTableParams_roundtrip_witness :
    parseTableParams
        (buildTableParams (TableState.toPartialState
          (⟨3, 20, some "name", .desc, some "bob"⟩ : TableState)))
      = (⟨3, 20, some "name", .desc, some "bob"⟩ : TableState) :=
  (buildTableParams_roundtrip
    (⟨none, none, none, none, none⟩ : PartialTableState)
    (⟨3, 20, some "name", .desc, some "bob"⟩ : TableState)
    ⟨3, by norm_num, by norm_num⟩ ⟨20, by norm_num, by norm_num⟩
    (by simp) (by simp)).2.2.2.2.2

end ConvexTable
